import Mathlib

/-!
Shallow embedding of the portfolio refresh daemon (`src/python/daemon.py`,
with the SQLite schema of `src/python/init_db.py`).

Conventions of the embedding:
* Python floats become rationals; a pandas null/NaN cell is `none`.
* A provider statement row (a pandas Series) is an association list from
  field name to value.
* Each SQLite table is a list of rows, in rowid order; `INSERT OR REPLACE`
  deletes the rows that conflict with the incoming row on a uniqueness
  constraint and appends the new row, `INSERT OR IGNORE` appends only when
  no conflict exists.  The `last_updated` columns (wall-clock defaults)
  are omitted.
* A Python exception raised by a provider call is an `Except.error`;
  catching it corresponds to matching on the error case.
-/

namespace Portfolio

/-- A cell of a provider record: `none` models a null/NaN value. -/
abbrev Val := Option ℚ

/-- A provider statement row: field name to (possibly null) value. -/
abbrev Record := List (String × Val)

/-- Python `str.upper()` on a ticker symbol: uppercase every character. -/
def pyUpper (s : String) : String :=
  ⟨s.data.map Char.toUpper⟩

/-- Python `str.strip()` as pandas applies it to a field label: drop
leading and trailing whitespace characters. -/
def pyStrip (s : String) : String :=
  ⟨((s.data.dropWhile Char.isWhitespace).reverse.dropWhile Char.isWhitespace).reverse⟩

/-- `row.index = row.index.str.strip()`: strip whitespace around every
field name of the record before any lookup. -/
def stripKeys (r : Record) : Record :=
  r.map (fun p => (pyStrip p.1, p.2))

/-- `row.get(key, default)` on a pandas Series: the stored value when the
label is present (even when that value is null), else the default. -/
def seriesGet (r : Record) (key : String) (d : Val) : Val :=
  match r.find? (fun p => p.1 == key) with
  | some p => p.2
  | none => d

/-- The nested-`get` fallback chain used for every metric:
`row.get(c1, row.get(c2, ... default))`. -/
def resolveChain (r : Record) : List String → ℚ → Val
  | [], d => some d
  | c :: cs, d => seriesGet r c (resolveChain r cs d)

/-- Resolve a metric against a record: field names of the record are
stripped, then the fallback chain of candidates is tried. -/
def resolveField (r : Record) (chain : List String) (d : ℚ) : Val :=
  resolveChain (stripKeys r) chain d

/-- Whether the (stripped) record carries the field at all. -/
def hasField (r : Record) (c : String) : Bool :=
  ((stripKeys r).find? (fun p => p.1 == c)).isSome

/-- The value stored at a field of the (stripped) record, null when absent. -/
def lookupField (r : Record) (c : String) : Val :=
  match (stripKeys r).find? (fun p => p.1 == c) with
  | some p => p.2
  | none => none

/-- `abs(float(row.get("Capital Expenditure", row.get("Net PPE Purchase And Sale", 0.0))))`:
the stored capital-expenditures figure of a cashflow row. -/
def capexOf (r : Record) : Val :=
  (resolveField r ["Capital Expenditure", "Net PPE Purchase And Sale"] 0).map (fun q => |q|)

/-- Row of `prices` (`ticker TEXT PRIMARY KEY, date, close`). -/
structure PriceRow where
  ticker : String
  date : String
  close : ℚ
deriving DecidableEq

/-- Row of `price_history` (`PRIMARY KEY (ticker, date)`). -/
structure PriceHistoryRow where
  ticker : String
  date : String
  close : ℚ
deriving DecidableEq

/-- Row of `stocks` (`ticker TEXT PRIMARY KEY`, snapshot columns). -/
structure StockRow where
  ticker : String
  name : String
  currency : String
  sector : Option String
  sharesOutstanding : ℚ
  price : ℚ
  marketCap : ℚ
  beta : Option ℚ
  growthRate : ℚ
  discountRate : ℚ
  taxRate : ℚ
deriving DecidableEq

/-- Row of `balance_sheet` (`id INTEGER PRIMARY KEY AUTOINCREMENT`; the
`ticker` and `date` columns carry no uniqueness constraint). -/
structure BalanceSheetRow where
  id : ℕ
  ticker : String
  date : String
  totalAssets : Val
  totalLiabilities : Val
  totalDebt : Val
  totalCash : Val
deriving DecidableEq

/-- Row of `income_statement` (`id INTEGER PRIMARY KEY AUTOINCREMENT`). -/
structure IncomeRow where
  id : ℕ
  ticker : String
  date : String
  ebit : Val
  ebitda : Val
  netIncome : Val
  totalRevenue : Val
deriving DecidableEq

/-- Row of `cashflow_statement` (`id INTEGER PRIMARY KEY AUTOINCREMENT`). -/
structure CashflowRow where
  id : ℕ
  ticker : String
  date : String
  operatingCashFlow : Val
  capitalExpenditures : Val
deriving DecidableEq

/-- Row of `update_requests` (id, ticker, processed flag). -/
structure UpdateRequestRow where
  id : ℕ
  ticker : String
  processed : Bool
deriving DecidableEq

/-- The SQLite store `portfolio.db`, one list of rows per table. -/
structure DB where
  prices : List PriceRow
  priceHistory : List PriceHistoryRow
  stocks : List StockRow
  balanceSheet : List BalanceSheetRow
  incomeStatement : List IncomeRow
  cashflowStatement : List CashflowRow
  updateRequests : List UpdateRequestRow
deriving DecidableEq

/-- The freshly created, empty store. -/
def emptyDB : DB := ⟨[], [], [], [], [], [], []⟩

/-- The next AUTOINCREMENT id: one past the largest id in the table. -/
def freshId (ids : List ℕ) : ℕ :=
  ids.foldr max 0 + 1

/-- `INSERT OR REPLACE INTO balance_sheet (ticker, date, ...)`: the id is
assigned fresh by AUTOINCREMENT, and the only uniqueness constraint of
the table is that id, so the conflict filter never removes anything and
the statement appends a new row even when a row for the same
(ticker, date) already exists. -/
def insertBalanceSheet (t d : String) (r : Record) (tbl : List BalanceSheetRow) :
    List BalanceSheetRow :=
  let row : BalanceSheetRow :=
    { id := freshId (tbl.map (·.id)), ticker := t, date := d,
      totalAssets := resolveField r ["Total Assets"] 0,
      totalLiabilities := resolveField r
        ["Total Liabilities Net Minority Interest",
         "Total Non Current Liabilities Net Minority Interest"] 0,
      totalDebt := resolveField r ["Total Debt", "Long Term Debt"] 0,
      totalCash := resolveField r
        ["Cash And Cash Equivalents",
         "Cash Cash Equivalents And Short Term Investments"] 0 }
  tbl.filter (fun x => x.id != row.id) ++ [row]

/-- `INSERT OR REPLACE INTO income_statement (ticker, date, ...)`; same
AUTOINCREMENT-only keying as the balance sheet table. -/
def insertIncome (t d : String) (r : Record) (tbl : List IncomeRow) : List IncomeRow :=
  let row : IncomeRow :=
    { id := freshId (tbl.map (·.id)), ticker := t, date := d,
      ebit := resolveField r ["EBIT", "Operating Income"] 0,
      ebitda := resolveField r ["EBITDA", "Operating Income"] 0,
      netIncome := resolveField r ["Net Income", "Net Income Continuous Operations"] 0,
      totalRevenue := resolveField r ["Total Revenue", "Operating Revenue"] 0 }
  tbl.filter (fun x => x.id != row.id) ++ [row]

/-- `INSERT OR REPLACE INTO cashflow_statement (ticker, date, ...)`; the
capital-expenditures column stores the absolute value of the resolved
figure. -/
def insertCashflow (t d : String) (r : Record) (tbl : List CashflowRow) : List CashflowRow :=
  let row : CashflowRow :=
    { id := freshId (tbl.map (·.id)), ticker := t, date := d,
      operatingCashFlow := resolveField r
        ["Operating Cash Flow", "Cash Flow From Continuing Operating Activities"] 0,
      capitalExpenditures := capexOf r }
  tbl.filter (fun x => x.id != row.id) ++ [row]

/-- The `for date, row in bs.iterrows()` loop over the transposed
balance-sheet frame. -/
def writeBalanceRows (t : String) : List (String × Record) → List BalanceSheetRow → List BalanceSheetRow
  | [], tbl => tbl
  | pr :: rest, tbl => writeBalanceRows t rest (insertBalanceSheet t pr.1 pr.2 tbl)

/-- The loop over the income-statement frame. -/
def writeIncomeRows (t : String) : List (String × Record) → List IncomeRow → List IncomeRow
  | [], tbl => tbl
  | pr :: rest, tbl => writeIncomeRows t rest (insertIncome t pr.1 pr.2 tbl)

/-- The loop over the cashflow frame. -/
def writeCashflowRows (t : String) : List (String × Record) → List CashflowRow → List CashflowRow
  | [], tbl => tbl
  | pr :: rest, tbl => writeCashflowRows t rest (insertCashflow t pr.1 pr.2 tbl)

/-- The three statement frames a `yfinance` ticker object yields, each as
the list of (period date, record) pairs of the transposed frame; an
`error` is an exception raised by the provider call, and a `None` or
empty frame is the empty list. -/
structure StmtFetch where
  balance : Except String (List (String × Record))
  income : Except String (List (String × Record))
  cashflow : Except String (List (String × Record))

/-- `fetch_and_store_fundamentals`: one try block covers the balance
sheet, income and cashflow fetches in that order; an exception anywhere
is caught and logged (the returned message), leaving the writes already
executed in place and skipping the rest. -/
def fetchAndStoreFundamentals (ticker : String) (f : StmtFetch) (db : DB) :
    DB × Option String :=
  match f.balance with
  | .error e => (db, some e)
  | .ok bsRows =>
    let db1 := { db with balanceSheet := writeBalanceRows ticker bsRows db.balanceSheet }
    match f.income with
    | .error e => (db1, some e)
    | .ok incRows =>
      let db2 := { db1 with incomeStatement := writeIncomeRows ticker incRows db1.incomeStatement }
      match f.cashflow with
      | .error e => (db2, some e)
      | .ok cfRows =>
        ({ db2 with cashflowStatement := writeCashflowRows ticker cfRows db2.cashflowStatement },
         none)

/-- The generic `t.info` dictionary; each field is absent (`none`) when
the provider omits it, and `t.info` being `None` is the all-absent
record (the code substitutes an empty dictionary). -/
structure Info where
  sharesOutstanding : Option ℚ := none
  marketCap : Option ℚ := none
  beta : Option ℚ := none
  shortName : Option String := none
  currency : Option String := none
  sector : Option String := none

/-- Everything a `yf.Ticker` object can be asked for during one ticker's
processing: the fast-path price (`fast_info.last_price`, which may raise
or return nothing), the one-day history closes (`t.history`, which may
raise; the empty list is an empty frame), the info dictionary (`t.info`,
which may raise), and the three statement frames. -/
structure TickerFetch where
  fastPrice : Except Unit (Option ℚ)
  history : Except String (List ℚ)
  info : Except String Info
  stmts : StmtFetch

/-- A provider oracle: what `yf.Ticker(symbol)` yields for each symbol. -/
abbrev Oracle := String → TickerFetch

/-- The fast-path price as the code leaves it: `price = None`, then
`try: price = t.fast_info.last_price except: pass`. -/
def fastPathPrice (o : TickerFetch) : Option ℚ :=
  match o.fastPrice with
  | .ok p => p
  | .error _ => none

/-- Price resolution for one ticker: when the fast-path price is `None`
or `0`, fetch the one-day history (an exception there escapes to the
per-ticker handler) and, when the frame is non-empty, take its last
close — otherwise the fast-path value stands, `0` included.  The caller
skips the ticker only when the result is `none`. -/
def resolvePrice (o : TickerFetch) : Except String (Option ℚ) :=
  let fast := fastPathPrice o
  if fast = none ∨ fast = some 0 then
    match o.history with
    | .error e => .error e
    | .ok closes =>
      .ok (match closes.getLast? with
           | some c => some c
           | none => fast)
  else .ok fast

/-- Python `x or default` on an optional float: the default stands in for
both an absent value and a zero value. -/
def pyOr (b : Option ℚ) (d : ℚ) : ℚ :=
  match b with
  | none => d
  | some x => if x = 0 then d else x

/-- What one iteration of the batch loop did for its ticker. -/
inductive Outcome where
  | updated (price : ℚ)
  | skippedNoPrice
  | failed (msg : String)
deriving DecidableEq

/-- `INSERT OR IGNORE INTO price_history`: appends only when no row with
the (ticker, date) primary key exists. -/
def insertPriceHistory (t d : String) (c : ℚ) (db : DB) : DB :=
  if db.priceHistory.any (fun r => r.ticker == t && r.date == d) then db
  else { db with priceHistory := db.priceHistory ++ [⟨t, d, c⟩] }

/-- The three snapshot writes of the batch loop: `INSERT OR REPLACE`
into `stocks` and `prices` (both keyed by ticker) and `INSERT OR IGNORE`
into `price_history`. -/
def writeSnapshot (today ticker : String) (price : ℚ) (stockRow : StockRow) (db : DB) : DB :=
  let db1 : DB :=
    { db with stocks := db.stocks.filter (fun r => r.ticker != ticker) ++ [stockRow] }
  let db2 : DB :=
    { db1 with prices := db1.prices.filter (fun r => r.ticker != ticker) ++ [⟨ticker, today, price⟩] }
  insertPriceHistory ticker today price db2

/-- The body of the per-ticker loop of `fetch_and_store_batch`, for an
already upper-cased ticker: resolve the price, skip on `None`, read the
info dictionary, compute the valuation defaults, and write the stocks,
prices and price-history rows followed by the fundamentals.  `today`
stands for the wall-clock date/timestamp strings.  A `failed` outcome is
an exception caught by the per-ticker handler; both raising calls
(history, info) precede every write, so a failed ticker has written
nothing. -/
def processTicker (today ticker : String) (o : TickerFetch) (db : DB) : DB × Outcome :=
  match resolvePrice o with
  | .error e => (db, .failed e)
  | .ok none => (db, .skippedNoPrice)
  | .ok (some price) =>
    match o.info with
    | .error e => (db, .failed e)
    | .ok info =>
      let shares := info.sharesOutstanding.getD 0
      let marketCap := info.marketCap.getD (price * shares)
      let beta := info.beta
      let name := info.shortName.getD ticker
      let currency := info.currency.getD "USD"
      let sector := info.sector
      let growthRate : ℚ := 3 / 100
      let rf : ℚ := 4 / 100
      let rm : ℚ := 8 / 100
      let discountRate := rf + pyOr beta 1 * (rm - rf)
      let taxRate : ℚ := 21 / 100
      let stockRow : StockRow :=
        { ticker := ticker, name := name, currency := currency, sector := sector,
          sharesOutstanding := shares, price := price, marketCap := marketCap,
          beta := beta, growthRate := growthRate, discountRate := discountRate,
          taxRate := taxRate }
      ((fetchAndStoreFundamentals ticker o.stmts
          (writeSnapshot today ticker price stockRow db)).1,
       .updated price)

/-- The per-ticker loop of `fetch_and_store_batch` over already
upper-cased tickers, recording one outcome per ticker. -/
def runBatch (today : String) (oracle : Oracle) : List String → DB → DB × List (String × Outcome)
  | [], db => (db, [])
  | t :: ts, db =>
    let r := processTicker today t (oracle t) db
    let rest := runBatch today oracle ts r.1
    (rest.1, (t, r.2) :: rest.2)

/-- `fetch_and_store_batch`: return at once on an empty list, otherwise
upper-case every ticker and process each in turn. -/
def fetchAndStoreBatch (today : String) (oracle : Oracle) (tickers : List String) (db : DB) :
    DB × List (String × Outcome) :=
  if tickers.isEmpty then (db, [])
  else runBatch today oracle (tickers.map (fun t => pyUpper t)) db

/-- `BATCH_SIZE`: tickers per batch of a full refresh. -/
def BATCH_SIZE : ℕ := 50

/-- The longest idle sleep, seconds (`SLEEP_IDLE`). -/
def SLEEP_IDLE : ℚ := 5

/-- The sleep after servicing requests, seconds (`SLEEP_ACTIVE = 0.2`). -/
def SLEEP_ACTIVE : ℚ := 1 / 5

/-- Seconds between periodic full refreshes (`REFRESH_INTERVAL`). -/
def REFRESH_INTERVAL : ℚ := 300

/-- The slicing loop `for i in range(0, len(tickers), BATCH_SIZE)`,
with a fuel argument for termination. -/
def chunkAux (fuel n : ℕ) (l : List α) : List (List α) :=
  match fuel with
  | 0 => []
  | fuel + 1 =>
    if l.isEmpty then []
    else l.take n :: chunkAux fuel n (l.drop n)

/-- Partition a list into consecutive slices of at most `n` elements. -/
def toBatches (n : ℕ) (l : List α) : List (List α) :=
  chunkAux l.length n l

/-- `refresh_all_tickers`: the distinct tickers of the prices table,
processed in `BATCH_SIZE` slices; an empty universe is a logged no-op. -/
def refreshAllTickers (today : String) (oracle : Oracle) (db : DB) : DB :=
  let tickers := (db.prices.map (·.ticker)).dedup
  if tickers.isEmpty then db
  else (toBatches BATCH_SIZE tickers).foldl
    (fun acc batch => (fetchAndStoreBatch today oracle batch acc).1) db

/-- The mutable scheduling state threaded through the daemon loop. -/
structure DaemonState where
  db : DB
  sleepTime : ℚ
  lastRefreshTime : ℚ
deriving DecidableEq

/-- The externally observable steps of one loop iteration, in order. -/
inductive Action where
  | deleteRequests (ids : List ℕ)
  | commit
  | invokeBatch (tickers : List String)
  | refreshAll
  | backoff
deriving DecidableEq

/-- `SELECT id, ticker FROM update_requests WHERE processed = 0`. -/
def pendingRequests (db : DB) : List UpdateRequestRow :=
  db.updateRequests.filter (fun r => r.processed == false)

/-- One iteration of the `while True` loop of `run_daemon` at time `now`:
service all pending requests (delete them and commit before fetching,
and drop the sleep interval to its minimum), else run the periodic
refresh when it is due, else back off toward the idle interval.  The
returned actions record the iteration's externally visible steps in
program order. -/
def daemonStep (now : ℚ) (today : String) (oracle : Oracle) (s : DaemonState) :
    DaemonState × List Action :=
  let pending := pendingRequests s.db
  if pending.isEmpty then
    if REFRESH_INTERVAL ≤ now - s.lastRefreshTime then
      ({ db := refreshAllTickers today oracle s.db,
         sleepTime := s.sleepTime,
         lastRefreshTime := now },
       [Action.refreshAll])
    else
      ({ db := s.db,
         sleepTime := min (s.sleepTime * (3 / 2)) SLEEP_IDLE,
         lastRefreshTime := s.lastRefreshTime },
       [Action.backoff])
  else
    let tickers := pending.map (·.ticker)
    let ids := pending.map (·.id)
    let dbDeleted :=
      { s.db with updateRequests := s.db.updateRequests.filter (fun r => !(ids.contains r.id)) }
    ({ db := (fetchAndStoreBatch today oracle tickers dbDeleted).1,
       sleepTime := SLEEP_ACTIVE,
       lastRefreshTime := s.lastRefreshTime },
     [Action.deleteRequests ids, Action.commit, Action.invokeBatch tickers])

/-- `n` consecutive iterations of the daemon loop at a fixed time. -/
def daemonIter (now : ℚ) (today : String) (oracle : Oracle) : ℕ → DaemonState → DaemonState
  | 0, s => s
  | n + 1, s => daemonIter now today oracle n (daemonStep now today oracle s).1

/-- A balance-sheet record with a single field, used as a test input. -/
def bsRecordA : Record := [("Total Assets", some 100)]

/-- Statement frames holding one balance-sheet period and nothing else. -/
def stmtFetchA : StmtFetch :=
  ⟨Except.ok [("2023-12-31", bsRecordA)], Except.ok [], Except.ok []⟩

/-- The store after running the statement upserter twice with the same
input for ticker AAA, starting from the empty store. -/
def dbAfterTwoRuns : DB :=
  (fetchAndStoreFundamentals "AAA" stmtFetchA
    (fetchAndStoreFundamentals "AAA" stmtFetchA emptyDB).1).1

/-- An info dictionary with every field absent. -/
def emptyInfo : Info := {}

/-- Statement frames that are all empty. -/
def stmtFetchEmpty : StmtFetch := ⟨Except.ok [], Except.ok [], Except.ok []⟩

/-- A ticker whose fast-path price is `0` and whose one-day history is
empty: neither path yields a usable price. -/
def zeroFastFetch : TickerFetch :=
  ⟨Except.ok (some 0), Except.ok [], Except.ok emptyInfo, stmtFetchEmpty⟩

/-- A ticker whose balance-sheet fetch raises while income and cashflow
data are available. -/
def stmtFetchBoom : StmtFetch :=
  ⟨Except.error "malformed balance sheet",
   Except.ok [("2023-12-31", [("EBIT", some 7)])],
   Except.ok [("2023-12-31", [("Operating Cash Flow", some 3)])]⟩

/-- A provider response with nothing useful in it. -/
def defaultFetch : TickerFetch :=
  ⟨Except.error (), Except.ok [], Except.ok {}, stmtFetchEmpty⟩

/-- An oracle returning nothing useful for every symbol. -/
def nullOracle : Oracle := fun _ => defaultFetch

/-- A record whose first fallback candidate is present but null while
the second candidate is present with value 5. -/
def nullFirstRecord : Record :=
  [("Total Liabilities Net Minority Interest", none),
   ("Total Non Current Liabilities Net Minority Interest", some 5)]

/-- Claim C1: contrary to the claimed idempotence, running the statement
upserter twice with the same (ticker, period-date, record) leaves two
rows for that key in the balance-sheet table: the statement tables key
only on their AUTOINCREMENT id, so INSERT OR REPLACE never replaces. -/
theorem C1_duplicate_statement_rows :
    (dbAfterTwoRuns.balanceSheet.filter
      (fun r => r.ticker == "AAA" && r.date == "2023-12-31")).length = 2 := by
  decide

/-- Claim C2 counterexample: a ticker whose fast path reports price 0
and whose daily history is empty is not skipped — the code only skips on
`None` — and rows are written for it (with price 0). -/
theorem C2_counterexample :
    (processTicker "2024-01-02" "BADTICKER" zeroFastFetch emptyDB).2 ≠ Outcome.skippedNoPrice ∧
    (processTicker "2024-01-02" "BADTICKER" zeroFastFetch emptyDB).1.prices ≠ [] := by
  decide

/-- Claim C3 counterexample: a failure fetching the balance sheet is
caught and logged, but income and cashflow data that were available for
the same ticker are not processed — the single try block aborts the
remaining statement kinds. -/
theorem C3_counterexample :
    fetchAndStoreFundamentals "AAA" stmtFetchBoom emptyDB
      = (emptyDB, some "malformed balance sheet") ∧
    stmtFetchBoom.income ≠ Except.ok [] ∧
    (fetchAndStoreFundamentals "AAA" stmtFetchBoom emptyDB).1.incomeStatement = [] := by
  refine ⟨by decide, ?_, by decide⟩
  intro h
  simp [stmtFetchBoom] at h

/-- Claim C5 counterexample: an iteration that performs the periodic
refresh does not reset the sleep interval to its minimum — here the
interval stays at 5 instead of dropping to 0.2. -/
theorem C5_counterexample :
    (daemonStep 1000 "2024-01-02" nullOracle ⟨emptyDB, 5, 0⟩).2 = [Action.refreshAll] ∧
    (daemonStep 1000 "2024-01-02" nullOracle ⟨emptyDB, 5, 0⟩).1.sleepTime ≠ SLEEP_ACTIVE := by
  norm_num [daemonStep, pendingRequests, emptyDB, REFRESH_INTERVAL, SLEEP_ACTIVE,
    refreshAllTickers]

/-- Claim C7 counterexample: when the first candidate field is present
but null, the resolver returns that null rather than the value 5 of the
second candidate, which is present and non-null. -/
theorem C7_counterexample :
    resolveField nullFirstRecord
      ["Total Liabilities Net Minority Interest",
       "Total Non Current Liabilities Net Minority Interest"] 0 = none ∧
    resolveField nullFirstRecord
      ["Total Liabilities Net Minority Interest",
       "Total Non Current Liabilities Net Minority Interest"] 0 ≠ some 5 ∧
    hasField nullFirstRecord "Total Non Current Liabilities Net Minority Interest" = true ∧
    lookupField nullFirstRecord "Total Non Current Liabilities Net Minority Interest" = some 5 := by
  decide

lemma seriesGet_eq_of_find_none {r : Record} {c : String}
    (h : r.find? (fun p => p.1 == c) = none) (d : Val) :
    seriesGet r c d = d := by
  unfold seriesGet
  rw [h]

lemma seriesGet_eq_of_find_some {r : Record} {c : String} {p : String × Val}
    (h : r.find? (fun q => q.1 == c) = some p) (d : Val) :
    seriesGet r c d = p.2 := by
  unfold seriesGet
  rw [h]

lemma resolveChain_of_all_absent {r : Record} {chain : List String} (d : ℚ)
    (h : ∀ c ∈ chain, r.find? (fun p => p.1 == c) = none) :
    resolveChain r chain d = some d := by
  induction chain with
  | nil => rfl
  | cons c cs ih =>
    show seriesGet r c (resolveChain r cs d) = some d
    rw [seriesGet_eq_of_find_none (h c (by simp))]
    exact ih (fun c2 hc2 => h c2 (by simp [hc2]))

lemma resolveChain_first_found {r : Record} {c : String} {p : String × Val}
    (hp : r.find? (fun q => q.1 == c) = some p) :
    ∀ (pre : List String), (∀ c2 ∈ pre, r.find? (fun q => q.1 == c2) = none) →
    ∀ (post : List String) (d : ℚ), resolveChain r (pre ++ c :: post) d = p.2 := by
  intro pre
  induction pre with
  | nil =>
    intro _ post d
    show seriesGet r c (resolveChain r post d) = p.2
    exact seriesGet_eq_of_find_some hp _
  | cons a as ih =>
    intro hpre post d
    show seriesGet r a (resolveChain r (as ++ c :: post) d) = p.2
    rw [seriesGet_eq_of_find_none (hpre a (by simp))]
    exact ih (fun c2 h2 => hpre c2 (by simp [h2])) post d

lemma hasField_false_find_none {r : Record} {c : String} (h : hasField r c = false) :
    (stripKeys r).find? (fun p => p.1 == c) = none := by
  unfold hasField at h
  cases hf : (stripKeys r).find? (fun p => p.1 == c) with
  | none => rfl
  | some p => rw [hf] at h; simp at h

lemma hasField_true_find_some {r : Record} {c : String} (h : hasField r c = true) :
    ∃ p, (stripKeys r).find? (fun q => q.1 == c) = some p ∧ lookupField r c = p.2 := by
  unfold hasField at h
  cases hf : (stripKeys r).find? (fun q => q.1 == c) with
  | none => rw [hf] at h; simp at h
  | some p =>
    refine ⟨p, rfl, ?_⟩
    unfold lookupField
    rw [hf]

/-- Claim C7 (amended): the resolver is a pure total function; with the
record's field names whitespace-stripped, it returns the default when no
candidate field is present, and otherwise the stored value of the first
candidate that is present — even when that stored value is null —
regardless of the values at later positions. -/
theorem C7_field_resolution (r : Record) (chain : List String) (d : ℚ) :
    ((∀ c ∈ chain, hasField r c = false) → resolveField r chain d = some d) ∧
    (∀ pre c post, chain = pre ++ c :: post →
      (∀ c2 ∈ pre, hasField r c2 = false) → hasField r c = true →
      resolveField r chain d = lookupField r c) := by
  constructor
  · intro h
    exact resolveChain_of_all_absent d (fun c hc => hasField_false_find_none (h c hc))
  · intro pre c post hchain hpre hc
    obtain ⟨p, hp, hl⟩ := hasField_true_find_some hc
    rw [hl, hchain]
    exact resolveChain_first_found hp pre
      (fun c2 h2 => hasField_false_find_none (hpre c2 h2)) post d

/-- Witness for claim C7's theorem: a whitespace-padded field name is
found under its stripped name, skipping an absent first candidate. -/
theorem C7_field_resolution_witness :
    resolveField [(" Total Debt ", some 7)] ["Nonexistent", "Total Debt"] 0 = some 7 := by
  have h := (C7_field_resolution [(" Total Debt ", some 7)] ["Nonexistent", "Total Debt"] 0).2
    ["Nonexistent"] "Total Debt" [] rfl (by intro c2 h2; simp at h2; subst h2; decide)
    (by decide)
  rw [h]
  decide

/-- Claim C8: price-history writes are insert-if-absent on the
(ticker, date) primary key — when the key is new, two writes with
different prices leave exactly the one row carrying the first price;
when the key exists the write is a no-op; and a write never takes a key
from at most one row to more than one row. -/
theorem C8_price_history_first_write_wins (db : DB) (t d : String) (p1 p2 : ℚ) :
    (db.priceHistory.any (fun r => r.ticker == t && r.date == d) = false →
      (insertPriceHistory t d p2 (insertPriceHistory t d p1 db)).priceHistory.filter
        (fun r => r.ticker == t && r.date == d) = [⟨t, d, p1⟩]) ∧
    (db.priceHistory.any (fun r => r.ticker == t && r.date == d) = true →
      insertPriceHistory t d p2 db = db) ∧
    ((db.priceHistory.filter (fun r => r.ticker == t && r.date == d)).length ≤ 1 →
      ((insertPriceHistory t d p1 db).priceHistory.filter
        (fun r => r.ticker == t && r.date == d)).length ≤ 1) := by
  have hfilter_nil : db.priceHistory.any (fun r => r.ticker == t && r.date == d) = false →
      db.priceHistory.filter (fun r => r.ticker == t && r.date == d) = [] := by
    intro h
    rw [List.filter_eq_nil_iff]
    intro a ha
    rw [List.any_eq_false] at h
    exact h a ha
  refine ⟨?_, ?_, ?_⟩
  · intro h
    have hinner : insertPriceHistory t d p1 db =
        { db with priceHistory := db.priceHistory ++ [⟨t, d, p1⟩] } := by
      unfold insertPriceHistory
      rw [if_neg (by simp [h])]
    have houter : insertPriceHistory t d p2
        ({ db with priceHistory := db.priceHistory ++ [⟨t, d, p1⟩] } : DB) =
        { db with priceHistory := db.priceHistory ++ [⟨t, d, p1⟩] } := by
      unfold insertPriceHistory
      rw [if_pos (by rw [List.any_append]; simp)]
    rw [hinner, houter]
    show (db.priceHistory ++ [(⟨t, d, p1⟩ : PriceHistoryRow)]).filter
      (fun r => r.ticker == t && r.date == d) = _
    rw [List.filter_append, hfilter_nil h]
    simp
  · intro h
    unfold insertPriceHistory
    rw [if_pos h]
  · intro h
    unfold insertPriceHistory
    by_cases hc : db.priceHistory.any (fun r => r.ticker == t && r.date == d) = true
    · rw [if_pos hc]
      exact h
    · rw [if_neg hc]
      rw [List.filter_append, hfilter_nil (Bool.not_eq_true _ ▸ Bool.eq_false_iff.mpr hc)]
      simp

/-- Witness for claim C8's theorem: on a fresh store, writing 10 and
then 20 for the same (ticker, date) leaves the single row with 10. -/
theorem C8_price_history_witness :
    (insertPriceHistory "AAA" "2024-01-02" 20
      (insertPriceHistory "AAA" "2024-01-02" 10 emptyDB)).priceHistory.filter
        (fun r => r.ticker == "AAA" && r.date == "2024-01-02")
      = [⟨"AAA", "2024-01-02", 10⟩] :=
  (C8_price_history_first_write_wins emptyDB "AAA" "2024-01-02" 10 20).1 rfl

/-- Claim C3 (amended): a provider failure while fetching a statement
kind is caught per ticker and returned as a logged message — it never
escapes to the caller — but the statement kinds after the failing one in
the fixed order (balance sheet, income, cashflow) are skipped for that
ticker, while the kinds already written before the failure are kept. -/
theorem C3_statement_failure_isolation (t : String) (f : StmtFetch) (db : DB) :
    (∀ e, f.balance = .error e → fetchAndStoreFundamentals t f db = (db, some e)) ∧
    (∀ rows e, f.balance = .ok rows → f.income = .error e →
      fetchAndStoreFundamentals t f db =
        ({ db with balanceSheet := writeBalanceRows t rows db.balanceSheet }, some e)) ∧
    (∀ rowsB rowsI e, f.balance = .ok rowsB → f.income = .ok rowsI → f.cashflow = .error e →
      fetchAndStoreFundamentals t f db =
        ({ db with balanceSheet := writeBalanceRows t rowsB db.balanceSheet,
                   incomeStatement := writeIncomeRows t rowsI db.incomeStatement }, some e)) := by
  refine ⟨?_, ?_, ?_⟩
  · intro e hb
    unfold fetchAndStoreFundamentals
    rw [hb]
  · intro rows e hb hi
    unfold fetchAndStoreFundamentals
    rw [hb, hi]
  · intro rowsB rowsI e hb hi hc
    unfold fetchAndStoreFundamentals
    rw [hb, hi, hc]

/-- Statement frames whose income fetch raises while balance-sheet data
is available. -/
def stmtFetchIncomeBoom : StmtFetch :=
  ⟨Except.ok [("2023-12-31", bsRecordA)], Except.error "bad income", Except.ok []⟩

/-- Witness for claim C3's theorem: an income-statement failure is
returned as a logged message with the balance-sheet write kept. -/
theorem C3_statement_failure_isolation_witness :
    fetchAndStoreFundamentals "AAA" stmtFetchIncomeBoom emptyDB =
      ({ emptyDB with
          balanceSheet := writeBalanceRows "AAA" [("2023-12-31", bsRecordA)] emptyDB.balanceSheet },
       some "bad income") :=
  (C3_statement_failure_isolation "AAA" stmtFetchIncomeBoom emptyDB).2.1
    [("2023-12-31", bsRecordA)] "bad income" rfl rfl

/-- Claim C2 (amended): the current price comes from the fast-path
lookup; when that is unavailable or zero the most recent daily close is
used instead; the ticker is skipped — with no rows written — exactly
when the resolved price is `None`, that is, when the fast path produced
no number at all and the one-day history is empty.  When the fast path
returns 0 and the history is empty, the ticker is not skipped and
proceeds with price 0. -/
theorem C2_price_fallback (today t : String) (o : TickerFetch) (db : DB) :
    (∀ p, fastPathPrice o = some p → p ≠ 0 → resolvePrice o = .ok (some p)) ∧
    (∀ closes c, (fastPathPrice o = none ∨ fastPathPrice o = some 0) →
      o.history = .ok closes → closes.getLast? = some c → resolvePrice o = .ok (some c)) ∧
    (fastPathPrice o = none → o.history = .ok [] → resolvePrice o = .ok none) ∧
    (resolvePrice o = .ok none → processTicker today t o db = (db, .skippedNoPrice)) := by
  refine ⟨?_, ?_, ?_, ?_⟩
  · intro p hp hp0
    unfold resolvePrice
    rw [hp, if_neg]
    rintro (h | h)
    · exact Option.noConfusion h
    · exact hp0 (Option.some.injEq _ _ ▸ h)
  · intro closes c hfast hh hl
    unfold resolvePrice
    rcases hfast with h | h <;> rw [h, if_pos (by simp)] <;> simp [hh, hl]
  · intro hfast hh
    unfold resolvePrice
    rw [hfast, if_pos (Or.inl rfl), hh]
    rfl
  · intro h
    unfold processTicker
    rw [h]

/-- A ticker whose fast path returns nothing but whose one-day history
carries a close of 42. -/
def histFetch : TickerFetch :=
  ⟨Except.ok none, Except.ok [42], Except.ok {}, stmtFetchEmpty⟩

/-- Witness for claim C2's theorem: with no fast-path price, the last
daily close 42 is resolved. -/
theorem C2_price_fallback_witness :
    resolvePrice histFetch = .ok (some 42) :=
  (C2_price_fallback "2024-01-02" "AAA" histFetch emptyDB).2.1 [42] 42 (Or.inl rfl) rfl rfl

lemma mem_writeCashflowRows {t : String} {rows : List (String × Record)}
    {tbl : List CashflowRow} {row : CashflowRow} (h : row ∈ writeCashflowRows t rows tbl) :
    row ∈ tbl ∨ ∃ r : Record, row.capitalExpenditures = capexOf r := by
  induction rows generalizing tbl with
  | nil => exact Or.inl h
  | cons pr rest ih =>
    have h2 : row ∈ writeCashflowRows t rest (insertCashflow t pr.1 pr.2 tbl) := h
    rcases ih h2 with h1 | h1
    · simp only [insertCashflow] at h1
      rcases List.mem_append.mp h1 with hf | hr
      · exact Or.inl (List.mem_of_mem_filter hf)
      · have heq : row = _ := List.mem_singleton.mp hr
        exact Or.inr ⟨pr.2, by rw [heq]⟩
    · exact Or.inr h1

/-- Claim C10: every cashflow row the statement upserter writes stores
as capital expenditures the absolute value of the resolved figure of the
"Capital Expenditure" chain (fallback "Net PPE Purchase And Sale"), and
every numeric value so stored is non-negative. -/
theorem C10_capex_absolute (t : String) (f : StmtFetch) (db : DB) :
    (∀ row ∈ (fetchAndStoreFundamentals t f db).1.cashflowStatement,
      row ∈ db.cashflowStatement ∨ ∃ r : Record, row.capitalExpenditures = capexOf r) ∧
    (∀ (r : Record) (q : ℚ), capexOf r = some q → 0 ≤ q) := by
  constructor
  · intro row hrow
    unfold fetchAndStoreFundamentals at hrow
    cases hb : f.balance with
    | error e => rw [hb] at hrow; exact Or.inl hrow
    | ok rowsB =>
      rw [hb] at hrow
      cases hi : f.income with
      | error e => rw [hi] at hrow; exact Or.inl hrow
      | ok rowsI =>
        rw [hi] at hrow
        cases hc : f.cashflow with
        | error e => rw [hc] at hrow; exact Or.inl hrow
        | ok rowsC =>
          rw [hc] at hrow
          exact mem_writeCashflowRows hrow
  · intro r q hq
    unfold capexOf at hq
    rcases Option.map_eq_some'.mp hq with ⟨x, _, hx⟩
    rw [← hx]
    exact abs_nonneg x

/-- Witness for claim C10's theorem: a provider capital expenditure of
-50 is stored as 50, a non-negative value. -/
theorem C10_capex_absolute_witness : (0 : ℚ) ≤ 50 :=
  (C10_capex_absolute "AAA" stmtFetchEmpty emptyDB).2
    [("Capital Expenditure", some (-50))] 50 (by decide)

lemma runBatch_outcomes (today : String) (oracle : Oracle) :
    ∀ (ts : List String) (db : DB), (runBatch today oracle ts db).2.map Prod.fst = ts := by
  intro ts
  induction ts with
  | nil => intro db; rfl
  | cons t rest ih =>
    intro db
    simp only [runBatch, List.map_cons]
    rw [ih]

/-- Claim C6: the batch fetcher records exactly one outcome per input
ticker, in order — every ticker is processed and a failure is logged
with the (upper-cased) ticker identity and its cause — and a ticker
whose processing fails leaves the store exactly as it was, so rows
already written for earlier tickers are neither rolled back nor lost. -/
theorem C6_per_ticker_isolation (today : String) (oracle : Oracle) (tickers : List String)
    (db : DB) :
    ((fetchAndStoreBatch today oracle tickers db).2.map Prod.fst
      = tickers.map (fun t => pyUpper t)) ∧
    (∀ t o db2 e, (processTicker today t o db2).2 = Outcome.failed e →
      (processTicker today t o db2).1 = db2) := by
  constructor
  · unfold fetchAndStoreBatch
    by_cases he : tickers.isEmpty = true
    · rw [if_pos he]
      cases tickers with
      | nil => rfl
      | cons a as => simp at he
    · rw [if_neg he]
      exact runBatch_outcomes today oracle _ db
  · intro t o db2 e h
    unfold processTicker at h ⊢
    cases hrp : resolvePrice o with
    | error e2 => rfl
    | ok po =>
      rw [hrp] at h
      cases po with
      | none =>
        have hcontra : Outcome.skippedNoPrice = Outcome.failed e := h
        exact Outcome.noConfusion hcontra
      | some p =>
        cases hinfo : o.info with
        | error e2 => rfl
        | ok i =>
          rw [hinfo] at h
          have hcontra : Outcome.updated p = Outcome.failed e := h
          exact Outcome.noConfusion hcontra

/-- A ticker whose one-day history fetch raises a network error. -/
def failFetch : TickerFetch :=
  ⟨Except.ok none, Except.error "network down", Except.ok {}, stmtFetchEmpty⟩

/-- Witness for claim C6's theorem: a ticker failing with a network
error leaves the store untouched. -/
theorem C6_per_ticker_isolation_witness :
    (processTicker "2024-01-02" "AAA" failFetch emptyDB).1 = emptyDB :=
  (C6_per_ticker_isolation "2024-01-02" nullOracle [] emptyDB).2
    "AAA" failFetch emptyDB "network down" rfl

lemma updateRequests_writeSnapshot (today t : String) (p : ℚ) (sr : StockRow) (db : DB) :
    (writeSnapshot today t p sr db).updateRequests = db.updateRequests := by
  simp only [writeSnapshot, insertPriceHistory]
  split <;> rfl

lemma updateRequests_fundamentals (t : String) (f : StmtFetch) (db : DB) :
    (fetchAndStoreFundamentals t f db).1.updateRequests = db.updateRequests := by
  unfold fetchAndStoreFundamentals
  cases f.balance with
  | error e => rfl
  | ok rowsB =>
    cases f.income with
    | error e => rfl
    | ok rowsI =>
      cases f.cashflow with
      | error e => rfl
      | ok rowsC => rfl

lemma updateRequests_processTicker (today t : String) (o : TickerFetch) (db : DB) :
    (processTicker today t o db).1.updateRequests = db.updateRequests := by
  unfold processTicker
  cases resolvePrice o with
  | error e => rfl
  | ok po =>
    cases po with
    | none => rfl
    | some p =>
      cases o.info with
      | error e => rfl
      | ok i => simp only [updateRequests_fundamentals, updateRequests_writeSnapshot]

lemma updateRequests_runBatch (today : String) (oracle : Oracle) :
    ∀ (ts : List String) (db : DB), (runBatch today oracle ts db).1.updateRequests = db.updateRequests := by
  intro ts
  induction ts with
  | nil => intro db; rfl
  | cons t rest ih =>
    intro db
    simp only [runBatch]
    rw [ih, updateRequests_processTicker]

lemma updateRequests_batch (today : String) (oracle : Oracle) (tickers : List String) (db : DB) :
    (fetchAndStoreBatch today oracle tickers db).1.updateRequests = db.updateRequests := by
  unfold fetchAndStoreBatch
  split
  · rfl
  · exact updateRequests_runBatch today oracle _ db

/-- Claim C4: on an iteration with pending update requests, the
iteration's steps are exactly: delete all pending request rows, commit
the deletion, and only then invoke the batch fetcher on the requested
tickers; and whatever the fetch does — the oracle may fail every ticker
— the post-state has no pending requests left, so a dequeued request is
never processed again. -/
theorem C4_requests_at_most_once (now : ℚ) (today : String) (oracle : Oracle)
    (s : DaemonState) (h : (pendingRequests s.db).isEmpty = false) :
    (daemonStep now today oracle s).2 =
      [Action.deleteRequests ((pendingRequests s.db).map (·.id)),
       Action.commit,
       Action.invokeBatch ((pendingRequests s.db).map (·.ticker))] ∧
    (daemonStep now today oracle s).1.db.updateRequests =
      s.db.updateRequests.filter
        (fun r => !(((pendingRequests s.db).map (·.id)).contains r.id)) ∧
    pendingRequests (daemonStep now today oracle s).1.db = [] := by
  have hne : ¬((pendingRequests s.db).isEmpty = true) := by simp [h]
  refine ⟨?_, ?_, ?_⟩
  · unfold daemonStep
    rw [if_neg hne]
  · unfold daemonStep
    rw [if_neg hne]
    simp only [updateRequests_batch]
  · unfold daemonStep
    rw [if_neg hne]
    simp only [pendingRequests, updateRequests_batch]
    rw [List.filter_eq_nil_iff]
    intro r hr
    have hmem := List.mem_of_mem_filter hr
    have hkeep := List.of_mem_filter hr
    intro hproc
    have hpend : r ∈ s.db.updateRequests.filter (fun r => r.processed == false) :=
      List.mem_filter.mpr ⟨hmem, hproc⟩
    simp at hkeep
    exact hkeep r hmem (by simpa using hproc) rfl

/-- A store holding one pending update request for ticker zzz. -/
def reqDB : DB := { emptyDB with updateRequests := [⟨1, "zzz", false⟩] }

/-- Witness for claim C4's theorem: after one iteration on a store with
a pending request, no pending request remains, even though the oracle
yields nothing for the ticker. -/
theorem C4_requests_at_most_once_witness :
    pendingRequests (daemonStep 0 "2024-01-02" nullOracle ⟨reqDB, 5, 0⟩).1.db = [] :=
  (C4_requests_at_most_once 0 "2024-01-02" nullOracle ⟨reqDB, 5, 0⟩ rfl).2.2

lemma min_backoff (a b r : ℚ) (hb : 0 ≤ b) (hr : 1 ≤ r) (N : ℕ) :
    min (min (a * r) b * r ^ N) b = min (a * r ^ (N + 1)) b := by
  rcases le_total (a * r) b with h | h
  · have he : a * r * r ^ N = a * r ^ (N + 1) := by ring
    rw [min_eq_left h, he]
  · have h1 : b ≤ b * r ^ N := le_mul_of_one_le_right hb (one_le_pow₀ hr)
    have h2 : b ≤ a * r ^ (N + 1) := by
      calc b ≤ a * r := h
      _ ≤ a * r * r ^ N := le_mul_of_one_le_right (le_trans hb h) (one_le_pow₀ hr)
      _ = a * r ^ (N + 1) := by ring
    rw [min_eq_right h, min_eq_right h1, min_eq_right h2]

lemma daemonIter_idle_sleep (now : ℚ) (today : String) (oracle : Oracle) :
    ∀ (N : ℕ) (s : DaemonState),
      (pendingRequests s.db).isEmpty = true → now - s.lastRefreshTime < REFRESH_INTERVAL →
      0 ≤ s.sleepTime → s.sleepTime ≤ SLEEP_IDLE →
      (daemonIter now today oracle N s).sleepTime
        = min (s.sleepTime * (3 / 2) ^ N) SLEEP_IDLE := by
  intro N
  induction N with
  | zero =>
    intro s hp ht h0 h5
    show s.sleepTime = _
    rw [pow_zero, mul_one, min_eq_left h5]
  | succ n ih =>
    intro s hp ht h0 h5
    have hstep : (daemonStep now today oracle s).1 =
        { db := s.db, sleepTime := min (s.sleepTime * (3 / 2)) SLEEP_IDLE,
          lastRefreshTime := s.lastRefreshTime } := by
      unfold daemonStep
      rw [if_pos hp, if_neg (not_le.mpr ht)]
    have hnn : 0 ≤ min (s.sleepTime * (3 / 2)) SLEEP_IDLE :=
      le_min (mul_nonneg h0 (by norm_num)) (by norm_num [SLEEP_IDLE])
    have hle : min (s.sleepTime * (3 / 2)) SLEEP_IDLE ≤ SLEEP_IDLE := min_le_right _ _
    show (daemonIter now today oracle n (daemonStep now today oracle s).1).sleepTime = _
    rw [hstep,
      ih { db := s.db, sleepTime := min (s.sleepTime * (3 / 2)) SLEEP_IDLE,
           lastRefreshTime := s.lastRefreshTime } hp ht hnn hle]
    exact min_backoff s.sleepTime SLEEP_IDLE (3 / 2) (by norm_num [SLEEP_IDLE]) (by norm_num) n

/-- Claim C5 (amended): the sleep interval resets to its minimum 0.2
only on iterations that service requests; an iteration that runs the
periodic refresh leaves the interval unchanged.  An idle iteration — no
pending requests and no refresh due — multiplies the interval by 1.5
capped at 5.0 and changes nothing else, so after N consecutive idle
iterations starting from interval s (with 0 ≤ s ≤ 5) the interval is
min(s * 1.5^N, 5.0); with s = 0.2, as after servicing a request, this is
the claimed min(0.2 * 1.5^N, 5.0). -/
theorem C5_backoff (now : ℚ) (today : String) (oracle : Oracle) (s : DaemonState) :
    ((pendingRequests s.db).isEmpty = false →
      (daemonStep now today oracle s).1.sleepTime = SLEEP_ACTIVE) ∧
    ((pendingRequests s.db).isEmpty = true → now - s.lastRefreshTime < REFRESH_INTERVAL →
      (daemonStep now today oracle s).1 =
        { db := s.db, sleepTime := min (s.sleepTime * (3 / 2)) SLEEP_IDLE,
          lastRefreshTime := s.lastRefreshTime }) ∧
    ((pendingRequests s.db).isEmpty = true → now - s.lastRefreshTime < REFRESH_INTERVAL →
      0 ≤ s.sleepTime → s.sleepTime ≤ SLEEP_IDLE →
      ∀ N, (daemonIter now today oracle N s).sleepTime
        = min (s.sleepTime * (3 / 2) ^ N) SLEEP_IDLE) := by
  refine ⟨?_, ?_, ?_⟩
  · intro h
    unfold daemonStep
    rw [if_neg (by simp [h])]
  · intro hp ht
    unfold daemonStep
    rw [if_pos hp, if_neg (not_le.mpr ht)]
  · intro hp ht h0 h5 N
    exact daemonIter_idle_sleep now today oracle N s hp ht h0 h5

/-- Witness for claim C5's theorem: starting from the post-request
interval 0.2, two idle iterations raise it to min(0.2 * 1.5^2, 5) =
0.45. -/
theorem C5_backoff_witness :
    (daemonIter 10 "2024-01-02" nullOracle 2 ⟨emptyDB, 1 / 5, 0⟩).sleepTime = 9 / 20 := by
  have h := (C5_backoff 10 "2024-01-02" nullOracle ⟨emptyDB, 1 / 5, 0⟩).2.2 rfl
    (by norm_num [REFRESH_INTERVAL]) (by norm_num) (by norm_num [SLEEP_IDLE]) 2
  rw [h]
  norm_num [SLEEP_IDLE]

/-- The ticker keys of every table the batch fetcher writes. -/
def allTickerKeys (db : DB) : List String :=
  db.prices.map (·.ticker) ++ db.priceHistory.map (·.ticker) ++ db.stocks.map (·.ticker)
    ++ db.balanceSheet.map (·.ticker) ++ db.incomeStatement.map (·.ticker)
    ++ db.cashflowStatement.map (·.ticker)

lemma mem_map_filter_append {α β : Type} (f : α → β) (p : α → Bool) (l : List α) (a : α)
    {x : β} (h : x ∈ ((l.filter p) ++ [a]).map f) : x ∈ l.map f ∨ x = f a := by
  rw [List.map_append] at h
  rcases List.mem_append.mp h with h1 | h1
  · obtain ⟨a2, ha2, rfl⟩ := List.mem_map.mp h1
    exact Or.inl (List.mem_map.mpr ⟨a2, List.mem_of_mem_filter ha2, rfl⟩)
  · simp at h1
    exact Or.inr h1

lemma mem_map_append_singleton {α β : Type} (f : α → β) (l : List α) (a : α)
    {x : β} (h : x ∈ (l ++ [a]).map f) : x ∈ l.map f ∨ x = f a := by
  rw [List.map_append] at h
  rcases List.mem_append.mp h with h1 | h1
  · exact Or.inl h1
  · simp at h1
    exact Or.inr h1

lemma ticker_writeBalanceRows {t : String} {rows : List (String × Record)}
    {tbl : List BalanceSheetRow} {x : String}
    (h : x ∈ (writeBalanceRows t rows tbl).map (·.ticker)) :
    x ∈ tbl.map (·.ticker) ∨ x = t := by
  induction rows generalizing tbl with
  | nil => exact Or.inl h
  | cons pr rest ih =>
    have h2 : x ∈ (writeBalanceRows t rest (insertBalanceSheet t pr.1 pr.2 tbl)).map (·.ticker) := h
    rcases ih h2 with h1 | h1
    · simp only [insertBalanceSheet] at h1
      rcases mem_map_filter_append _ _ _ _ h1 with h3 | h3
      · exact Or.inl h3
      · exact Or.inr h3
    · exact Or.inr h1

lemma ticker_writeIncomeRows {t : String} {rows : List (String × Record)}
    {tbl : List IncomeRow} {x : String}
    (h : x ∈ (writeIncomeRows t rows tbl).map (·.ticker)) :
    x ∈ tbl.map (·.ticker) ∨ x = t := by
  induction rows generalizing tbl with
  | nil => exact Or.inl h
  | cons pr rest ih =>
    have h2 : x ∈ (writeIncomeRows t rest (insertIncome t pr.1 pr.2 tbl)).map (·.ticker) := h
    rcases ih h2 with h1 | h1
    · simp only [insertIncome] at h1
      rcases mem_map_filter_append _ _ _ _ h1 with h3 | h3
      · exact Or.inl h3
      · exact Or.inr h3
    · exact Or.inr h1

lemma ticker_writeCashflowRows {t : String} {rows : List (String × Record)}
    {tbl : List CashflowRow} {x : String}
    (h : x ∈ (writeCashflowRows t rows tbl).map (·.ticker)) :
    x ∈ tbl.map (·.ticker) ∨ x = t := by
  induction rows generalizing tbl with
  | nil => exact Or.inl h
  | cons pr rest ih =>
    have h2 : x ∈ (writeCashflowRows t rest (insertCashflow t pr.1 pr.2 tbl)).map (·.ticker) := h
    rcases ih h2 with h1 | h1
    · simp only [insertCashflow] at h1
      rcases mem_map_filter_append _ _ _ _ h1 with h3 | h3
      · exact Or.inl h3
      · exact Or.inr h3
    · exact Or.inr h1

lemma allTickerKeys_stmt_update {db : DB} {x t : String}
    {bs : List BalanceSheetRow} {inc : List IncomeRow} {cf : List CashflowRow}
    (hbs : ∀ y, y ∈ bs.map (·.ticker) → y ∈ db.balanceSheet.map (·.ticker) ∨ y = t)
    (hinc : ∀ y, y ∈ inc.map (·.ticker) → y ∈ db.incomeStatement.map (·.ticker) ∨ y = t)
    (hcf : ∀ y, y ∈ cf.map (·.ticker) → y ∈ db.cashflowStatement.map (·.ticker) ∨ y = t)
    (h : x ∈ allTickerKeys
      { db with balanceSheet := bs, incomeStatement := inc, cashflowStatement := cf }) :
    x ∈ allTickerKeys db ∨ x = t := by
  simp only [allTickerKeys, List.mem_append] at h ⊢
  rcases h with ((((h | h) | h) | h) | h) | h
  · tauto
  · tauto
  · tauto
  · rcases hbs x h with h2 | h2 <;> tauto
  · rcases hinc x h with h2 | h2 <;> tauto
  · rcases hcf x h with h2 | h2 <;> tauto

lemma allTickerKeys_fundamentals {t : String} {f : StmtFetch} {db : DB} {x : String}
    (h : x ∈ allTickerKeys (fetchAndStoreFundamentals t f db).1) :
    x ∈ allTickerKeys db ∨ x = t := by
  unfold fetchAndStoreFundamentals at h
  rcases hb : f.balance with e | rowsB
  · rw [hb] at h; exact Or.inl h
  · rw [hb] at h
    rcases hi : f.income with e | rowsI
    · rw [hi] at h
      exact allTickerKeys_stmt_update
        (fun y hy => ticker_writeBalanceRows hy)
        (fun y hy => Or.inl hy) (fun y hy => Or.inl hy) h
    · rw [hi] at h
      rcases hc : f.cashflow with e | rowsC
      · rw [hc] at h
        exact allTickerKeys_stmt_update
          (fun y hy => ticker_writeBalanceRows hy)
          (fun y hy => ticker_writeIncomeRows hy)
          (fun y hy => Or.inl hy) h
      · rw [hc] at h
        exact allTickerKeys_stmt_update
          (fun y hy => ticker_writeBalanceRows hy)
          (fun y hy => ticker_writeIncomeRows hy)
          (fun y hy => ticker_writeCashflowRows hy) h

lemma allTickerKeys_writeSnapshot {today t : String} {p : ℚ} {sr : StockRow} {db : DB}
    {x : String} (hsr : sr.ticker = t)
    (h : x ∈ allTickerKeys (writeSnapshot today t p sr db)) :
    x ∈ allTickerKeys db ∨ x = t := by
  simp only [writeSnapshot, insertPriceHistory] at h
  split at h
  · simp only [allTickerKeys, List.mem_append] at h ⊢
    rcases h with ((((h | h) | h) | h) | h) | h
    · rcases mem_map_filter_append _ _ _ _ h with h2 | h2
      · tauto
      · exact Or.inr h2
    · tauto
    · rcases mem_map_filter_append _ _ _ _ h with h2 | h2
      · tauto
      · exact Or.inr (hsr ▸ h2)
    · tauto
    · tauto
    · tauto
  · simp only [allTickerKeys, List.mem_append] at h ⊢
    rcases h with ((((h | h) | h) | h) | h) | h
    · rcases mem_map_filter_append _ _ _ _ h with h2 | h2
      · tauto
      · exact Or.inr h2
    · rcases mem_map_append_singleton _ _ _ h with h2 | h2
      · tauto
      · exact Or.inr h2
    · rcases mem_map_filter_append _ _ _ _ h with h2 | h2
      · tauto
      · exact Or.inr (hsr ▸ h2)
    · tauto
    · tauto
    · tauto

lemma allTickerKeys_processTicker {today t : String} {o : TickerFetch} {db : DB} {x : String}
    (h : x ∈ allTickerKeys (processTicker today t o db).1) :
    x ∈ allTickerKeys db ∨ x = t := by
  unfold processTicker at h
  rcases hrp : resolvePrice o with e | po
  · rw [hrp] at h; exact Or.inl h
  · rw [hrp] at h
    cases po with
    | none => exact Or.inl h
    | some p =>
      rcases hinfo : o.info with e | i
      · rw [hinfo] at h; exact Or.inl h
      · rw [hinfo] at h
        rcases allTickerKeys_fundamentals h with h1 | h1
        · exact allTickerKeys_writeSnapshot rfl h1
        · exact Or.inr h1

lemma allTickerKeys_runBatch {today : String} {oracle : Oracle} :
    ∀ {ts : List String} {db : DB} {x : String},
      x ∈ allTickerKeys (runBatch today oracle ts db).1 → x ∈ allTickerKeys db ∨ x ∈ ts := by
  intro ts
  induction ts with
  | nil => intro db x h; exact Or.inl h
  | cons t rest ih =>
    intro db x h
    have h2 : x ∈ allTickerKeys
        (runBatch today oracle rest (processTicker today t (oracle t) db).1).1 := h
    rcases ih h2 with h1 | h1
    · rcases allTickerKeys_processTicker h1 with h3 | h3
      · exact Or.inl h3
      · exact Or.inr (by simp [h3])
    · exact Or.inr (by simp [h1])

/-- Claim C9: every ticker key present after a batch run was either
already in the store or is the upper-cased form of one of the input
tickers — the batch fetcher upper-cases each symbol before any write, so
lowercase or mixed-case input is stored under its uppercase key. -/
theorem C9_uppercase_ticker_keys (today : String) (oracle : Oracle) (tickers : List String)
    (db : DB) (x : String)
    (h : x ∈ allTickerKeys (fetchAndStoreBatch today oracle tickers db).1) :
    x ∈ allTickerKeys db ∨ ∃ t ∈ tickers, x = pyUpper t := by
  unfold fetchAndStoreBatch at h
  split at h
  · exact Or.inl h
  · rcases allTickerKeys_runBatch h with h1 | h1
    · exact Or.inl h1
    · rcases List.mem_map.mp h1 with ⟨t, ht, heq⟩
      exact Or.inr ⟨t, ht, heq.symm⟩

/-- A ticker whose fast-path price is 1 and nothing else. -/
def goodFetch : TickerFetch :=
  ⟨Except.ok (some 1), Except.ok [], Except.ok {}, stmtFetchEmpty⟩

/-- An oracle resolving a price of 1 for every symbol. -/
def goodOracle : Oracle := fun _ => goodFetch

/-- Witness for claim C9's theorem: after fetching lowercase aaa into an
empty store, the key AAA traces back to the upper-cased input. -/
theorem C9_uppercase_ticker_keys_witness :
    "AAA" ∈ allTickerKeys emptyDB ∨ ∃ t ∈ ["aaa"], "AAA" = pyUpper t :=
  C9_uppercase_ticker_keys "2024-01-02" goodOracle ["aaa"] emptyDB "AAA" (by decide)

end Portfolio
